import Mathlib

/-!
Shallow embedding of the voice-assistant repository (src/v.py, the
`FastVoiceAssistant`, and src/v_me.py, the `VoiceAssistant`): the response
cache with its memoized lookup, the generation fallback, both command
resolvers, the session-loop exit paths and the memory load, together with
theorems settling the spec's claims about them.
-/

namespace Assistant

/-- Python `key in command` on strings: substring containment, modelled as
infix containment of the character lists. -/
def containsSub (command key : String) : Bool :=
  decide (key.data <:+: command.data)

/-- Python dict lookup `d.get(k)` on an insertion-ordered association list. -/
def dictGet (d : List (String × String)) (k : String) : Option String :=
  (d.find? (fun e => e.1 == k)).map (fun e => e.2)

/-- Python dict assignment `d[k] = v`: update in place when the key exists,
otherwise append (dicts preserve insertion order). -/
def dictInsert (d : List (String × String)) (k v : String) : List (String × String) :=
  if d.any (fun e => e.1 == k) then d.map (fun e => if e.1 == k then (k, v) else e)
  else d ++ [(k, v)]

/-- Lookup in a `functools.lru_cache` memo table (most recently used last). -/
def lruFind (memo : List (String × Option String)) (k : String) : Option (Option String) :=
  (memo.find? (fun e => e.1 == k)).map (fun e => e.2)

/-- The mutable cache state of a `FastVoiceAssistant` (src/v.py): the
`response_cache` dict (line 37), and the memo table that the
`@lru_cache(maxsize=100)` decorator on `_get_cached_response` (line 58)
maintains for that method's results. -/
structure CacheState where
  response_cache : List (String × String)
  lru_memo : List (String × Option String)
deriving DecidableEq, Repr

/-- The state of a freshly constructed assistant: empty dict, empty memo. -/
def initCache : CacheState := ⟨[], []⟩

/-- v.py lines 58-61, `_get_cached_response` under its
`@lru_cache(maxsize=100)` decorator: on a memo hit the memoized value is
returned and that entry becomes most recently used; on a memo miss the body
runs (`self.response_cache.get(prompt)`), the result is memoized, and the
least recently used memo entry is evicted once the memo exceeds 100 entries. -/
def get_cached_response (st : CacheState) (prompt : String) : Option String × CacheState :=
  match lruFind st.lru_memo prompt with
  | some v =>
      (v, { st with lru_memo := (st.lru_memo.filter (fun e => !(e.1 == prompt))) ++ [(prompt, v)] })
  | none =>
      let v := dictGet st.response_cache prompt
      let memo := st.lru_memo ++ [(prompt, v)]
      (v, { st with lru_memo := if memo.length > 100 then memo.tail else memo })

/-- Python truthiness of `cached_response` at v.py line 68: not None and not
the empty string. -/
def truthyOpt : Option String → Bool
  | none => false
  | some s => !(s == "")

/-- The fixed apology returned when the backend raises (v.py line 94). -/
def apologyText : String := "I'm having trouble processing that right now."

/-- v.py lines 96-98, `_build_prompt`. -/
def build_prompt (user_input : String) : String := "Respond concisely to: " ++ user_input

/-- Result of one `get_ollama_response` invocation: the returned text, the
cache state afterwards, and how many times the backend was invoked. -/
structure GenResult where
  text : String
  st : CacheState
  calls : Nat
deriving DecidableEq, Repr

/-- v.py lines 63-94, `get_ollama_response`: consult the memoized cache
lookup; on a truthy hit return the cached text without calling the backend;
otherwise invoke the backend (`ollama.chat`, modelled as a function from the
built prompt to either the extracted response text or an exception), store a
successful text in `response_cache[prompt]` and return it; on an exception
return the apology with no cache write. -/
def get_ollama_response (chat : String → Except Unit String) (st : CacheState)
    (prompt : String) : GenResult :=
  let r := get_cached_response st prompt
  if truthyOpt r.1 then ⟨r.1.getD "", r.2, 0⟩
  else
    match chat (build_prompt prompt) with
    | Except.error _ => ⟨apologyText, r.2, 1⟩
    | Except.ok response_text =>
        ⟨response_text,
         { r.2 with response_cache := dictInsert r.2.response_cache prompt response_text }, 1⟩

/-- Python `response.endswith(('.', '!', '?'))` at v.py line 150. -/
def endsWithPunct (s : String) : Bool :=
  match s.data.getLast? with
  | some c => c == '.' || c == '!' || c == '?'
  | none => false

/-- The `quick_responses` dict of v.py `process_command` (lines 134-140), in
insertion order; the current time and date strings are passed in for
`datetime.datetime.now()`. -/
def quick_responses (timeS dateS : String) : List (String × String) :=
  [("time", "It's " ++ timeS),
   ("date", "Today is " ++ dateS),
   ("hello", "Hi! How can I help?"),
   ("bye", "Goodbye!"),
   ("goodbye", "Goodbye!")]

/-- Outcome of one v.py `process_command` call: what was spoken (if
anything), the returned should-exit flag, the cache state afterwards and the
number of backend invocations. -/
structure FastOutcome where
  spoken : Option String
  shouldExit : Bool
  st : CacheState
  calls : Nat
deriving DecidableEq, Repr

/-- v.py lines 128-153, `process_command`: an empty command returns False
at once; otherwise the first `quick_responses` key contained in the command
wins, and the call returns True exactly when that key is "bye" or "goodbye";
with no quick key present the command goes to `get_ollama_response` and a
period is appended when the response lacks terminal punctuation. -/
def fast_process_command (timeS dateS : String) (chat : String → Except Unit String)
    (st : CacheState) (command : String) : FastOutcome :=
  if command == "" then ⟨none, false, st, 0⟩
  else
    match (quick_responses timeS dateS).find? (fun kv => containsSub command kv.1) with
    | some kv => ⟨some kv.2, kv.1 == "bye" || kv.1 == "goodbye", st, 0⟩
    | none =>
        let r := get_ollama_response chat st command
        let text := if endsWithPunct r.text then r.text else r.text ++ "."
        ⟨some text, false, r.st, r.calls⟩

/-- The memory dict of both assistants (v.py lines 17-21, v_me.py lines
12-16): three lists of strings. -/
structure Memory where
  conversations : List String
  tasks : List String
  preferences : List String
deriving DecidableEq, Repr

/-- The snapshot a freshly constructed assistant starts from. -/
def initMemory : Memory := ⟨[], [], []⟩

/-- Worker for `pyReplace`, structurally recursive on a fuel bound that the
remaining list length never exceeds. -/
def pyReplaceAux (pat repl : List Char) : Nat → List Char → List Char
  | _, [] => []
  | 0, l => l
  | fuel + 1, c :: rest =>
      if !pat.isEmpty && pat.isPrefixOf (c :: rest) then
        repl ++ pyReplaceAux pat repl fuel (rest.drop (pat.length - 1))
      else c :: pyReplaceAux pat repl fuel rest

/-- Python `str.replace(pat, repl)` on character lists: replace the
non-overlapping occurrences of `pat` from left to right (an empty `pat` is
never replaced here, matching the nonempty trigger word in the source). Each
step consumes at least one character, so the input length is enough fuel. -/
def pyReplace (pat repl l : List Char) : List Char :=
  pyReplaceAux pat repl l.length l

/-- The whitespace characters Python `str.strip()` removes (the ones that can
occur in a recognized utterance). -/
def pySpace (c : Char) : Bool := c == ' ' || c == '\t' || c == '\n' || c == '\r'

/-- Python `str.strip()`: drop whitespace from both ends. -/
def pyStrip (l : List Char) : List Char :=
  ((l.dropWhile pySpace).reverse.dropWhile pySpace).reverse

/-- v_me.py line 77: `command.replace("remember", "").strip()`, the string
appended to the task list by the remember branch. -/
def rememberPayload (command : String) : String :=
  String.mk (pyStrip (pyReplace "remember".data [] command.data))

/-- Python `self.memory["tasks"][-3:]` at v_me.py line 82: the last `n`
elements. -/
def lastN (n : Nat) (l : List String) : List String := l.drop (l.length - n)

/-- The four canned fallback responses of v_me.py lines 97-102. -/
def fallbackResponses : List String :=
  ["I'm here to help. What can I do for you?",
   "I didn't quite understand. Could you rephrase that?",
   "That's not something I'm capable of, but I can help with tasks, reminders, time, and date.",
   "I'm still learning. Could you try a different command?"]

/-- Outcome of one v_me.py `process_command` call: the memory afterwards, the
texts spoken in order, and whether `save_memory` was called. -/
structure VmeOutcome where
  memory : Memory
  spoken : List String
  saved : Bool
deriving DecidableEq, Repr

/-- v_me.py lines 61-103, `process_command`: the if/elif chain checks, in
order, "time", "date", "remember", the two recall phrases, "clear memory",
then "goodbye"/"bye" (whose branch also calls `save_memory`), and otherwise
speaks one of four canned responses chosen by `random.choice` (modelled by
the index `rnd`). The time and date strings stand in for
`datetime.datetime.now()`. -/
def vme_process_command (timeS dateS : String) (rnd : Nat) (mem : Memory)
    (command : String) : VmeOutcome :=
  if command == "" then ⟨mem, [], false⟩
  else if containsSub command "time" then ⟨mem, ["It's " ++ timeS], false⟩
  else if containsSub command "date" then ⟨mem, ["Today is " ++ dateS], false⟩
  else if containsSub command "remember" then
    ⟨{ mem with tasks := mem.tasks ++ [rememberPayload command] },
     ["I'll make a note of that."], false⟩
  else if containsSub command "what did i tell you" || containsSub command "what do you remember" then
    if mem.tasks.isEmpty then ⟨mem, ["I don't have any tasks stored in memory yet."], false⟩
    else ⟨mem, "Here's what I remember:" :: (lastN 3 mem.tasks).map (fun t => "- " ++ t), false⟩
  else if containsSub command "clear memory" then
    ⟨⟨[], [], []⟩, ["Memory cleared."], false⟩
  else if containsSub command "goodbye" || containsSub command "bye" then
    ⟨mem, ["Goodbye! Have a great day!"], true⟩
  else ⟨mem, [fallbackResponses.getD (rnd % 4) ""], false⟩

/-- One observable event of a session loop iteration: a recognized utterance,
an external KeyboardInterrupt, or an exception raised inside the loop body. -/
inductive LoopEvent
  | utter (s : String)
  | interrupt
  | err

/-- v.py lines 172-200, `run` and `main`: whether `save_memory` runs before
the process finishes, as a function of the loop events. `none` means the
event list ended with the loop still running. A farewell breaks the loop and
`run` and `main` both return normally, with no save on that path; an
exception inside the loop is caught by `run`'s `except Exception`, which
saves; a KeyboardInterrupt is not an `Exception`, propagates past `run` and
is caught by `main`'s `except KeyboardInterrupt`, which saves. -/
def fastExitSaved (timeS dateS : String) (chat : String → Except Unit String) :
    List LoopEvent → CacheState → Option Bool
  | [], _ => none
  | LoopEvent.utter s :: rest, st =>
      let r := fast_process_command timeS dateS chat st s
      if r.shouldExit then some false else fastExitSaved timeS dateS chat rest r.st
  | LoopEvent.interrupt :: _, _ => some true
  | LoopEvent.err :: _, _ => some true

/-- v_me.py lines 126-131: the run loop breaks when the command contains
"goodbye" or "bye". -/
def vmeLoopBreaks (command : String) : Bool :=
  containsSub command "goodbye" || containsSub command "bye"

/-- v_me.py lines 122-145, `run` and the `__main__` block: `process_command`
itself saves only in its goodbye branch; the loop then breaks when the
command contains "goodbye" or "bye" and `run` returns with no further save;
a KeyboardInterrupt or any other exception is caught in the `__main__`
block, which saves. -/
def vmeExitSaved (timeS dateS : String) (rnd : Nat) :
    List LoopEvent → Memory → Option Bool
  | [], _ => none
  | LoopEvent.utter s :: rest, mem =>
      let r := vme_process_command timeS dateS rnd mem s
      if vmeLoopBreaks s then some r.saved else vmeExitSaved timeS dateS rnd rest r.memory
  | LoopEvent.interrupt :: _, _ => some true
  | LoopEvent.err :: _, _ => some true

/-- A parsed JSON value, as `json.load` can return it. -/
inductive JVal
  | jnull
  | jbool (b : Bool)
  | jnum (n : Int)
  | jstr (s : String)
  | jarr (xs : List JVal)
  | jobj (kvs : List (String × JVal))

/-- Whether a JSON value is an array of strings. -/
def isStrArr : JVal → Bool
  | JVal.jarr xs => xs.all (fun x => match x with | JVal.jstr _ => true | _ => false)
  | _ => false

/-- Lookup of a key in a JSON object's field list. -/
def jlookup (kvs : List (String × JVal)) (k : String) : Option JVal :=
  (kvs.find? (fun e => e.1 == k)).map (fun e => e.2)

/-- The MemorySnapshot shape: an object carrying all three fields, each an
array of strings. -/
def isWellFormedSnapshot (j : JVal) : Bool :=
  match j with
  | JVal.jobj kvs =>
      (match jlookup kvs "conversations" with | some v => isStrArr v | none => false)
      && (match jlookup kvs "tasks" with | some v => isStrArr v | none => false)
      && (match jlookup kvs "preferences" with | some v => isStrArr v | none => false)
  | _ => false

/-- The JSON value `json.dump` writes for a memory dict (v_me.py lines
105-111). -/
def memoryToJson (m : Memory) : JVal :=
  JVal.jobj [("conversations", JVal.jarr (m.conversations.map JVal.jstr)),
             ("tasks", JVal.jarr (m.tasks.map JVal.jstr)),
             ("preferences", JVal.jarr (m.preferences.map JVal.jstr))]

/-- The state of the persisted `assistant_memory.json` file at startup. -/
inductive FileState
  | absent
  | unparsable
  | parsed (j : JVal)

/-- v_me.py lines 113-120, `load_memory`: when the file exists,
`self.memory = json.load(f)` installs whatever JSON parses, with no shape
validation; a missing file or a `json.load` exception leaves the current
memory in place (the exception is swallowed). The resulting in-memory value
is viewed as JSON. -/
def load_memory (current : Memory) : FileState → JVal
  | FileState.absent => memoryToJson current
  | FileState.unparsable => memoryToJson current
  | FileState.parsed j => j

/-- Feed a list of prompts through the generation fallback in order, against a
backend that answers every built prompt successfully via `g` (repeated
`get_ollama_response` invocations on the evolving cache state). -/
def runPrompts (g : String → String) : List String → CacheState → CacheState
  | [], st => st
  | p :: ps, st =>
      runPrompts g ps (get_ollama_response (fun q => Except.ok (g q)) st p).st

/-- The 101 pairwise distinct prompts used to exercise the default capacity
bound: the strings of 0 to 100 repeated characters. -/
def manyPrompts : List String := (List.range 101).map (fun i => String.mk (List.replicate i 'a'))

lemma lruFind_eq_none {memo : List (String × Option String)} {p : String}
    (h : ∀ e ∈ memo, ¬ e.1 = p) : lruFind memo p = none := by
  unfold lruFind
  rw [List.find?_eq_none.mpr]
  · rfl
  · intro e he
    simpa using h e he

lemma runPrompts_no_evict (g : String → String) :
    ∀ (ps done : List String) (memo : List (String × Option String)),
      (∀ e ∈ memo, e.1 ∈ done) →
      (∀ p ∈ ps, p ∉ done) →
      ps.Nodup →
      (runPrompts g ps ⟨done.map (fun p => (p, g (build_prompt p))), memo⟩).response_cache
        = (done ++ ps).map (fun p => (p, g (build_prompt p)))
  | [], done, memo, _, _, _ => by simp [runPrompts]
  | p :: ps, done, memo, hmemo, hfresh, hnd => by
      have hp : p ∉ done := hfresh p (List.mem_cons_self p ps)
      have hfind : lruFind memo p = none := by
        apply lruFind_eq_none
        intro e he heq
        exact hp (heq ▸ hmemo e he)
      have hget : dictGet (done.map (fun q => (q, g (build_prompt q)))) p = none := by
        unfold dictGet
        rw [List.find?_eq_none.mpr]
        · rfl
        · intro e he
          simp only [List.mem_map] at he
          obtain ⟨q, hq, rfl⟩ := he
          simp only [beq_iff_eq]
          intro hqp
          exact hp (hqp ▸ hq)
      have hany : (done.map (fun q => (q, g (build_prompt q)))).any (fun e => e.1 == p) = false := by
        simp only [List.any_eq_false]
        intro e he
        simp only [List.mem_map] at he
        obtain ⟨q, hq, rfl⟩ := he
        simp only [beq_iff_eq]
        intro hqp
        exact hp (hqp ▸ hq)
      have hstep :
          (get_ollama_response (fun q => Except.ok (g q))
            ⟨done.map (fun q => (q, g (build_prompt q))), memo⟩ p).st
          = ⟨(done ++ [p]).map (fun q => (q, g (build_prompt q))),
             if (memo ++ [(p, none)]).length > 100 then (memo ++ [(p, none)]).tail
             else memo ++ [(p, none)]⟩ := by
        unfold get_ollama_response get_cached_response
        rw [hfind]
        simp only [hget, truthyOpt]
        unfold dictInsert
        rw [hany]
        simp
      rw [runPrompts, hstep]
      have hmemo' : ∀ e ∈ (if (memo ++ [(p, none)]).length > 100
          then (memo ++ [(p, none)]).tail else memo ++ [(p, none)]),
          e.1 ∈ done ++ [p] := by
        intro e he
        have he2 : e ∈ memo ++ [(p, none)] := by
          by_cases hl : (memo ++ [(p, none)]).length > 100
          · rw [if_pos hl] at he
            exact List.mem_of_mem_tail he
          · rw [if_neg hl] at he
            exact he
        rcases List.mem_append.mp he2 with h | h
        · exact List.mem_append.mpr (Or.inl (hmemo e h))
        · simp only [List.mem_singleton] at h
          subst h
          simp
      have := runPrompts_no_evict g ps (done ++ [p])
        (if (memo ++ [(p, none)]).length > 100 then (memo ++ [(p, none)]).tail
         else memo ++ [(p, none)]) hmemo'
        (by
          intro q hq
          simp only [List.mem_append, List.mem_singleton]
          rintro (h | rfl)
          · exact hfresh q (List.mem_cons_of_mem p hq) h
          · exact (List.nodup_cons.mp hnd).1 hq)
        (List.nodup_cons.mp hnd).2
      rw [this]
      simp

lemma manyPrompts_nodup : manyPrompts.Nodup := by
  unfold manyPrompts
  refine List.Nodup.map ?_ (List.nodup_range 101)
  intro i j hij
  have hd := congrArg String.data hij
  have : (List.replicate i 'a').length = (List.replicate j 'a').length := by
    simp only at hd
    rw [hd]
  simpa using this

lemma dictGet_map (f : String → String) :
    ∀ (ps : List String) (p : String), p ∈ ps →
      dictGet (ps.map (fun q => (q, f q))) p = some (f p)
  | q :: ps, p, h => by
    by_cases hq : q = p
    · subst hq
      simp [dictGet, List.find?]
    · have hp : p ∈ ps := by
        rcases List.mem_cons.mp h with h | h
        · exact absurd h.symm hq
        · exact h
      have ih := dictGet_map f ps p hp
      have hbeq : (q == p) = false := by simpa using hq
      simp only [dictGet, List.map_cons, List.find?, hbeq] at ih ⊢
      exact ih

lemma runPrompts_from_init (g : String → String) (ps : List String) (hnd : ps.Nodup) :
    (runPrompts g ps initCache).response_cache = ps.map (fun p => (p, g (build_prompt p))) := by
  have := runPrompts_no_evict g ps [] [] (by simp) (by simp) hnd
  simpa [initCache] using this

/-- C1: against the claim (and against the code's own comments "Check cache
first" / "Cache the response" and the docstring of `_get_cached_response`),
resolving the same prompt twice against a backend that succeeds both times
invokes the backend on both calls — one call each, two in total. The
`@lru_cache` decorator memoizes the first lookup's miss (`None`), so the
second invocation never sees the entry that the first one stored in
`response_cache` and calls the backend again. -/
theorem lru_memoized_miss_calls_backend_twice :
    (get_ollama_response (fun _ => Except.ok "hello there") initCache "hi").calls = 1
    ∧ (get_ollama_response (fun _ => Except.ok "hello there") initCache "hi").st.response_cache
        = [("hi", "hello there")]
    ∧ (get_ollama_response (fun _ => Except.ok "hello there")
        (get_ollama_response (fun _ => Except.ok "hello there") initCache "hi").st "hi").calls = 1
    ∧ (get_ollama_response (fun _ => Except.ok "hello there")
        (get_ollama_response (fun _ => Except.ok "hello there") initCache "hi").st "hi").text
        = "hello there" := by decide

/-- C2 counterexample: feeding the 101 distinct prompts of `manyPrompts`
through the fallback leaves 101 entries in `response_cache` — not 100 — and
the first-inserted prompt (the empty string) is still present, refuting the
claimed capacity bound with insertion-order eviction at N = 100. -/
theorem cache_unbounded_at_101 :
    (runPrompts (fun _ => "ok") manyPrompts initCache).response_cache.length = 101
    ∧ dictGet (runPrompts (fun _ => "ok") manyPrompts initCache).response_cache ""
        = some "ok" := by
  have h := runPrompts_from_init (fun _ => "ok") manyPrompts manyPrompts_nodup
  constructor
  · rw [h]
    simp [manyPrompts]
  · rw [h]
    have : ("" : String) ∈ manyPrompts := by
      unfold manyPrompts
      refine List.mem_map.mpr ⟨0, by simp, ?_⟩
      rfl
    exact dictGet_map _ manyPrompts "" this

/-- C2 amended: the `response_cache` dict is unbounded and never evicts.
Storing any number of distinct prompts (each generated successfully) leaves
exactly one entry per prompt, and every inserted prompt remains retrievable;
only the lookup memoizer is capped at 100 entries. -/
theorem cache_no_eviction (g : String → String) (ps : List String) (hnd : ps.Nodup) :
    (runPrompts g ps initCache).response_cache.length = ps.length
    ∧ ∀ p ∈ ps, dictGet (runPrompts g ps initCache).response_cache p
        = some (g (build_prompt p)) := by
  have h := runPrompts_from_init g ps hnd
  constructor
  · rw [h]
    simp
  · intro p hp
    rw [h]
    exact dictGet_map _ ps p hp

/-- Witness for `cache_no_eviction` at two concrete distinct prompts. -/
theorem cache_no_eviction_witness :
    (runPrompts (fun _ => "r") ["a", "b"] initCache).response_cache.length = ["a", "b"].length
    ∧ ∀ p ∈ ["a", "b"], dictGet (runPrompts (fun _ => "r") ["a", "b"] initCache).response_cache p
        = some ((fun _ => "r") (build_prompt p)) :=
  cache_no_eviction (fun _ => "r") ["a", "b"] (by decide)

lemma containsSub_of_containsSub {c sub big : String} (hs : sub.data <:+: big.data)
    (h : containsSub c big = true) : containsSub c sub = true := by
  simp only [containsSub, decide_eq_true_eq] at h ⊢
  exact hs.trans h

lemma beq_empty_false_of_containsSub {c k : String} (hk : containsSub "" k = false)
    (h : containsSub c k = true) : (c == "") = false := by
  cases hc : c == ""
  · rfl
  · have : c = "" := by simpa using hc
    subst this
    rw [hk] at h
    cases h

/-- C3 counterexample: in v.py the `quick_responses` dict is scanned in
insertion order and "time" precedes "bye", so the farewell utterance
"goodbye what time is it" is answered by the time rule and does NOT set the
termination flag, refuting termination "regardless of any other substrings". -/
theorem farewell_shadowed_by_time :
    (fast_process_command "12:00 PM" "June 01, 2025" (fun _ => Except.ok "x") initCache
      "goodbye what time is it").shouldExit = false := by decide

/-- C3 amended: v.py's resolver terminates the session exactly when the
utterance contains "bye" and contains none of the earlier quick keys "time",
"date" and "hello" (an utterance containing "goodbye" always contains "bye");
v_me.py's session loop instead breaks for every utterance containing
"goodbye" or "bye", whatever else it contains. -/
theorem farewell_termination_exact (command timeS dateS : String)
    (chat : String → Except Unit String) (st : CacheState) :
    (fast_process_command timeS dateS chat st command).shouldExit
      = (containsSub command "bye" && (!containsSub command "time")
          && (!containsSub command "date") && (!containsSub command "hello"))
    ∧ vmeLoopBreaks command = (containsSub command "goodbye" || containsSub command "bye") := by
  refine ⟨?_, rfl⟩
  by_cases h0 : (command == "") = true
  · have : command = "" := by simpa using h0
    subst this
    simp only [fast_process_command, if_pos h0]
    decide
  · rw [fast_process_command, if_neg h0]
    by_cases hb : containsSub command "bye" = true
    · cases ht : containsSub command "time" <;>
        cases hd : containsSub command "date" <;>
          cases hh : containsSub command "hello" <;>
            simp [quick_responses, List.find?, ht, hd, hh, hb]
    · have hb' : containsSub command "bye" = false := by simpa using hb
      have hg : containsSub command "goodbye" = false := by
        cases hgc : containsSub command "goodbye"
        · rfl
        · exact absurd (containsSub_of_containsSub (by decide) hgc) hb
      cases ht : containsSub command "time" <;>
        cases hd : containsSub command "date" <;>
          cases hh : containsSub command "hello" <;>
            simp [quick_responses, List.find?, ht, hd, hh, hb', hg]

/-- C4: the utterance "what do you remember" contains the substring
"remember", so v_me.py's earlier remember branch handles it: it appends
"what do you" to the task list and replies with the note acknowledgement
instead of enumerating the last three tasks — the recall branch's own
"what do you remember" test is unreachable for that phrase. The companion
trigger "what did i tell you" does reach the recall branch and enumerates
exactly the last three tasks [b, c, d] without mutating memory. -/
theorem recall_shadowed_by_remember :
    vme_process_command "12:00 PM" "June 01, 2025" 0 ⟨[], ["a", "b", "c", "d"], []⟩
        "what do you remember"
      = ⟨⟨[], ["a", "b", "c", "d", "what do you"], []⟩, ["I'll make a note of that."], false⟩
    ∧ vme_process_command "12:00 PM" "June 01, 2025" 0 ⟨[], ["a", "b", "c", "d"], []⟩
        "what did i tell you"
      = ⟨⟨[], ["a", "b", "c", "d"], []⟩,
         ["Here's what I remember:", "- b", "- c", "- d"], false⟩ := by decide

/-- C5 counterexample: in v.py a farewell utterance breaks the loop and both
`run` and `main` return normally without calling `save_memory` — the normal
exit path does not persist the memory snapshot. -/
theorem fast_farewell_exit_no_save :
    fastExitSaved "12:00 PM" "June 01, 2025" (fun _ => Except.ok "x")
      [LoopEvent.utter "bye"] initCache = some false := by decide

/-- C5 amended: both programs save the memory snapshot on an external
interruption and on an unrecoverable error inside the loop; on farewell exit
v_me.py saves because its goodbye branch calls `save_memory` (when that
branch is the one that handles the farewell), but v.py saves nothing on its
farewell exit path. -/
theorem exit_save_paths (timeS dateS : String) (chat : String → Except Unit String)
    (rnd : Nat) (rest : List LoopEvent) (st : CacheState) (mem : Memory) (cmd : String)
    (hbye : containsSub cmd "bye" = true)
    (htime : containsSub cmd "time" = false) (hdate : containsSub cmd "date" = false)
    (hrem : containsSub cmd "remember" = false)
    (htell : containsSub cmd "what did i tell you" = false)
    (hclear : containsSub cmd "clear memory" = false)
    (hhello : containsSub cmd "hello" = false) :
    fastExitSaved timeS dateS chat (LoopEvent.interrupt :: rest) st = some true
    ∧ fastExitSaved timeS dateS chat (LoopEvent.err :: rest) st = some true
    ∧ vmeExitSaved timeS dateS rnd (LoopEvent.interrupt :: rest) mem = some true
    ∧ vmeExitSaved timeS dateS rnd (LoopEvent.err :: rest) mem = some true
    ∧ vmeExitSaved timeS dateS rnd (LoopEvent.utter cmd :: rest) mem = some true
    ∧ fastExitSaved timeS dateS chat (LoopEvent.utter cmd :: rest) st = some false := by
  have hne : (cmd == "") = false := beq_empty_false_of_containsSub (by decide) hbye
  have hwdy : containsSub cmd "what do you remember" = false := by
    cases hw : containsSub cmd "what do you remember"
    · rfl
    · have hcon : containsSub cmd "remember" = true :=
        @containsSub_of_containsSub cmd "remember" "what do you remember" (by decide) hw
      rw [hrem] at hcon
      cases hcon
  refine ⟨rfl, rfl, rfl, rfl, ?_, ?_⟩
  · simp only [vmeExitSaved, vme_process_command, vmeLoopBreaks, hne, htime, hdate, hrem,
      htell, hwdy, hclear, hbye]
    simp
  · simp only [fastExitSaved, fast_process_command, quick_responses, List.find?, hne,
      htime, hdate, hhello, hbye]
    simp

/-- Witness for `exit_save_paths` at the farewell "bye" with empty states. -/
theorem exit_save_paths_witness :
    fastExitSaved "T" "D" (fun _ => Except.ok "x") (LoopEvent.interrupt :: []) initCache = some true
    ∧ fastExitSaved "T" "D" (fun _ => Except.ok "x") (LoopEvent.err :: []) initCache = some true
    ∧ vmeExitSaved "T" "D" 0 (LoopEvent.interrupt :: []) initMemory = some true
    ∧ vmeExitSaved "T" "D" 0 (LoopEvent.err :: []) initMemory = some true
    ∧ vmeExitSaved "T" "D" 0 (LoopEvent.utter "bye" :: []) initMemory = some true
    ∧ fastExitSaved "T" "D" (fun _ => Except.ok "x") (LoopEvent.utter "bye" :: []) initCache
        = some false :=
  exit_save_paths "T" "D" (fun _ => Except.ok "x") 0 [] initCache initMemory "bye"
    (by decide) (by decide) (by decide) (by decide) (by decide) (by decide) (by decide)

/-- C6 counterexample: "remember to say bye" contains both the memory keyword
"remember" and the quick farewell keyword "bye", yet v_me.py handles it with
the remember rule: the task list gains "to say bye" and the quick farewell
branch (which would also save) never runs — the quick rules are not all
checked before the memory rules. -/
theorem remember_beats_farewell :
    (vme_process_command "12:00 PM" "June 01, 2025" 0 initMemory "remember to say bye").memory.tasks
      = ["to say bye"]
    ∧ (vme_process_command "12:00 PM" "June 01, 2025" 0 initMemory "remember to say bye").spoken
      = ["I'll make a note of that."]
    ∧ (vme_process_command "12:00 PM" "June 01, 2025" 0 initMemory "remember to say bye").saved
      = false := by decide

/-- C6 amended: v_me.py checks "time" and "date" before the memory rules, so
an utterance containing "time" is handled by the time rule with no memory
mutation even when memory keywords are present; but the farewell quick rule
comes after the memory rules, so an utterance containing both "remember" and
"bye" (and no earlier keyword) is handled by the remember rule and mutates
memory. -/
theorem resolution_order (timeS dateS : String) (rnd : Nat) (mem : Memory) (cmd cmd2 : String)
    (h1 : containsSub cmd "time" = true)
    (h2 : containsSub cmd2 "time" = false) (h3 : containsSub cmd2 "date" = false)
    (h4 : containsSub cmd2 "remember" = true) (_h5 : containsSub cmd2 "bye" = true) :
    (vme_process_command timeS dateS rnd mem cmd).memory = mem
    ∧ (vme_process_command timeS dateS rnd mem cmd2).memory.tasks
        = mem.tasks ++ [rememberPayload cmd2]
    ∧ (vme_process_command timeS dateS rnd mem cmd2).saved = false := by
  have hne1 : (cmd == "") = false := beq_empty_false_of_containsSub (by decide) h1
  have hne2 : (cmd2 == "") = false := beq_empty_false_of_containsSub (by decide) h4
  refine ⟨?_, ?_, ?_⟩ <;> simp [vme_process_command, hne1, hne2, h1, h2, h3, h4]

/-- Witness for `resolution_order`: "remember the time" is handled by the
time rule without touching memory, while "remember to say bye" mutates it. -/
theorem resolution_order_witness :
    (vme_process_command "T" "D" 0 initMemory "remember the time").memory = initMemory
    ∧ (vme_process_command "T" "D" 0 initMemory "remember to say bye").memory.tasks
        = initMemory.tasks ++ [rememberPayload "remember to say bye"]
    ∧ (vme_process_command "T" "D" 0 initMemory "remember to say bye").saved = false :=
  resolution_order "T" "D" 0 initMemory "remember the time" "remember to say bye"
    (by decide) (by decide) (by decide) (by decide) (by decide)

lemma get_cached_response_cache (st : CacheState) (p : String) :
    (get_cached_response st p).2.response_cache = st.response_cache := by
  unfold get_cached_response
  cases lruFind st.lru_memo p <;> rfl

/-- C7: when the cache lookup misses (so the backend is actually invoked) and
the backend raises, `get_ollama_response` returns the fixed apology string,
leaves `response_cache` unchanged — the apology is not stored — and made
exactly one backend call. The embedding is a total function, so no exception
escapes the component. -/
theorem backend_failure_apology (st : CacheState) (prompt : String)
    (hmiss : truthyOpt (get_cached_response st prompt).1 = false) :
    (get_ollama_response (fun _ => Except.error ()) st prompt).text = apologyText
    ∧ (get_ollama_response (fun _ => Except.error ()) st prompt).st.response_cache
        = st.response_cache
    ∧ (get_ollama_response (fun _ => Except.error ()) st prompt).calls = 1 := by
  refine ⟨?_, ?_, ?_⟩ <;>
    simp only [get_ollama_response, hmiss, Bool.false_eq_true, if_false] <;>
    simp [get_cached_response_cache]

/-- Witness for `backend_failure_apology` on the empty cache state. -/
theorem backend_failure_apology_witness :
    (get_ollama_response (fun _ => Except.error ()) initCache "hi").text = apologyText
    ∧ (get_ollama_response (fun _ => Except.error ()) initCache "hi").st.response_cache
        = initCache.response_cache
    ∧ (get_ollama_response (fun _ => Except.error ()) initCache "hi").calls = 1 :=
  backend_failure_apology initCache "hi" (by decide)

/-- C8 counterexample: a backend call that succeeds with the empty string is
stored verbatim, so the cache does contain an entry whose value is the empty
string, refuting the claimed invariant. -/
theorem empty_success_is_cached :
    (get_ollama_response (fun _ => Except.ok "") initCache "hi").st.response_cache
      = [("hi", "")] := by decide

lemma mem_dictInsert {d : List (String × String)} {k v : String} {e : String × String}
    (h : e ∈ dictInsert d k v) : e ∈ d ∨ e.2 = v := by
  unfold dictInsert at h
  by_cases ha : d.any (fun e => e.1 == k) = true
  · rw [if_pos ha] at h
    obtain ⟨x, hx, hxe⟩ := List.mem_map.mp h
    by_cases hk : (x.1 == k) = true
    · right
      rw [if_pos hk] at hxe
      rw [← hxe]
    · left
      rw [if_neg hk] at hxe
      rwa [hxe] at hx
  · rw [if_neg ha] at h
    rcases List.mem_append.mp h with h | h
    · exact Or.inl h
    · right
      simp only [List.mem_singleton] at h
      rw [h]

/-- C8 amended: every entry of the cache after a fallback call was either
already present or carries a text that the backend returned successfully for
the built prompt; in particular a failing call (and its apology text) stores
nothing. Nothing, however, filters degenerate success responses such as the
empty string — they are stored verbatim. -/
theorem cache_values_from_success (chat : String → Except Unit String) (st : CacheState)
    (prompt : String) (e : String × String)
    (he : e ∈ (get_ollama_response chat st prompt).st.response_cache) :
    e ∈ st.response_cache ∨ chat (build_prompt prompt) = Except.ok e.2 := by
  rw [get_ollama_response] at he
  by_cases hc : truthyOpt (get_cached_response st prompt).1 = true
  · rw [if_pos hc] at he
    simp only at he
    rw [get_cached_response_cache] at he
    exact Or.inl he
  · rw [if_neg hc] at he
    cases hchat : chat (build_prompt prompt) with
    | error u =>
        rw [hchat] at he
        simp only at he
        rw [get_cached_response_cache] at he
        exact Or.inl he
    | ok t =>
        rw [hchat] at he
        simp only at he
        rw [get_cached_response_cache] at he
        rcases mem_dictInsert he with h | h
        · exact Or.inl h
        · exact Or.inr (by rw [h])

/-- Witness for `cache_values_from_success`: the entry ("hi", "yo") stored by
a successful call is accounted for by the backend's success. -/
theorem cache_values_from_success_witness :
    ("hi", "yo") ∈ initCache.response_cache
    ∨ (fun _ => (Except.ok "yo" : Except Unit String)) (build_prompt "hi")
        = Except.ok ("hi", "yo").2 :=
  cache_values_from_success (fun _ => Except.ok "yo") initCache "hi" ("hi", "yo") (by decide)

lemma all_jstr (l : List String) :
    (l.map JVal.jstr).all (fun x => match x with | JVal.jstr _ => true | _ => false) = true := by
  induction l with
  | nil => rfl
  | cons a l ih => simp [ih]

lemma memoryToJson_wellFormed (m : Memory) :
    isWellFormedSnapshot (memoryToJson m) = true := by
  simp only [memoryToJson, isWellFormedSnapshot, jlookup, List.find?]
  simp [isStrArr, all_jstr]

/-- C9 counterexample: a present file whose JSON parses to an object without
the three fields (here the empty object) is installed verbatim by
`load_memory`, leaving a snapshot that lacks conversations, tasks and
preferences — load validates nothing beyond JSON parsing. -/
theorem load_installs_unvalidated_json :
    isWellFormedSnapshot (load_memory initMemory (FileState.parsed (JVal.jobj []))) = false := by
  decide

/-- C9 amended: after startup load of an absent file or of a file that fails
JSON parsing the snapshot carries all three fields as string lists, and the
memory left by every resolver operation (including clear memory) always
serializes to that shape; but a present file holding parseable JSON of a
different shape is installed as-is and can break the invariant. -/
theorem snapshot_shape (mem : Memory) (timeS dateS : String) (rnd : Nat) (cmd : String) :
    isWellFormedSnapshot (load_memory initMemory FileState.absent) = true
    ∧ isWellFormedSnapshot (load_memory initMemory FileState.unparsable) = true
    ∧ isWellFormedSnapshot (memoryToJson (vme_process_command timeS dateS rnd mem cmd).memory)
        = true :=
  ⟨by decide, by decide, memoryToJson_wellFormed _⟩

/-- C10: whenever the remember rule handles an utterance (it contains
"remember" and none of the earlier keys "time" and "date"), exactly one entry
is appended to the task list, equal to the utterance with "remember" removed
(Python `str.replace`, all occurrences) and surrounding whitespace stripped;
the other two memory fields are untouched. -/
theorem remember_appends_stripped (timeS dateS : String) (rnd : Nat) (mem : Memory)
    (cmd : String)
    (htime : containsSub cmd "time" = false) (hdate : containsSub cmd "date" = false)
    (hrem : containsSub cmd "remember" = true) :
    (vme_process_command timeS dateS rnd mem cmd).memory.tasks
      = mem.tasks ++ [rememberPayload cmd]
    ∧ (vme_process_command timeS dateS rnd mem cmd).memory.conversations = mem.conversations
    ∧ (vme_process_command timeS dateS rnd mem cmd).memory.preferences = mem.preferences
    ∧ (vme_process_command timeS dateS rnd mem cmd).spoken = ["I'll make a note of that."] := by
  have hne : (cmd == "") = false := beq_empty_false_of_containsSub (by decide) hrem
  refine ⟨?_, ?_, ?_, ?_⟩ <;> simp [vme_process_command, hne, htime, hdate, hrem]

/-- Witness for `remember_appends_stripped` at the spec's own example, whose
payload evaluates to exactly "take out the trash". -/
theorem remember_appends_stripped_witness :
    (vme_process_command "T" "D" 0 initMemory "remember take out the trash").memory.tasks
      = initMemory.tasks ++ [rememberPayload "remember take out the trash"]
    ∧ (vme_process_command "T" "D" 0 initMemory "remember take out the trash").memory.conversations
        = initMemory.conversations
    ∧ (vme_process_command "T" "D" 0 initMemory "remember take out the trash").memory.preferences
        = initMemory.preferences
    ∧ (vme_process_command "T" "D" 0 initMemory "remember take out the trash").spoken
        = ["I'll make a note of that."] :=
  remember_appends_stripped "T" "D" 0 initMemory "remember take out the trash"
    (by decide) (by decide) (by decide)

/-- The payload of the spec's remember example is the trimmed remainder. -/
theorem remember_example_payload :
    rememberPayload "remember take out the trash" = "take out the trash" := by decide

end Assistant
